import Mathlib

/-!
Shallow embedding of the interactive logic of `src/toggle.py`
(World-Happiness visualization dashboard): the rectangular brush
selection (`Brush.callback`, `Brush.update_colors`), cross-panel linked
selection (`BrushingChart.select`), the bubble-chart click and hover
handlers (`BubbleChart.on_click`, `BubbleChart.on_hover`), tooltip
placement, map-label visibility (`MapChart.update_labels`) and the size
legend (`add_dynamic_size_legend`).

Numeric data values and drag coordinates are modelled as rationals
(floating-point comparison order is embedded faithfully in ℚ); pixel
coordinates for the tooltip are integers.
-/

namespace Toggle

/-- A pandas cell: missing (`None`/`NaN`), a numeric value, or text.
`null` stands for both `None` and `NaN`, which pandas treats alike in
`dropna` and in comparisons. -/
inductive Cell where
  | null : Cell
  | num : ℚ → Cell
  | text : String → Cell
deriving DecidableEq, Repr

/-- Whether a cell is missing (`pd.isna`). -/
def Cell.isNA : Cell → Bool
  | .null => true
  | _ => false

/-- Whether a cell holds non-numeric text. -/
def Cell.isText : Cell → Bool
  | .text _ => true
  | _ => false

/-- `pd.to_numeric(..., errors='coerce')` on one cell: numbers survive,
text is coerced to `NaN`, missing stays missing. -/
def toNumeric : Cell → Cell
  | .num q => .num q
  | _ => .null

/-- `Series.between(lo, hi, inclusive='both')` on one cell; a missing
cell compares false, as `NaN` does. -/
def between (c : Cell) (lo hi : ℚ) : Bool :=
  match c with
  | .num q => decide (lo ≤ q) && decide (q ≤ hi)
  | _ => false

/-- An RGBA color. -/
abbrev Color := ℚ × ℚ × ℚ × ℚ

/-- The flat neutral `gray = (0.7, 0.7, 0.7, 1.0)` used for unselected
rows in the brushing view. -/
def gray : Color := (7/10, 7/10, 7/10, 1)

/-- One data row restricted to the two attributes bound to a brush
panel's x and y axes. -/
structure BRow where
  x : Cell
  y : Cell
deriving DecidableEq, Repr

/-- Placeholder row for total list indexing (never reached in-range). -/
def emptyRow : BRow := ⟨.null, .null⟩

/-- The mutable state of the `Brush` class: its data frame (reduced to
the two bound columns), the positional indices of the current selection,
and the default and current per-row color arrays. -/
structure Brush where
  data : List BRow
  selected : List ℕ
  default_colors : List Color
  colors : List Color
deriving DecidableEq, Repr

/-- `Brush.update_colors`: an empty selection restores the default color
list wholesale; otherwise row `i` (for `i` in `range(len(self.data))`)
keeps its default color when selected and is grayed otherwise. -/
def updateColors (b : Brush) (selected : List ℕ) : Brush :=
  if selected.length = 0 then
    { b with colors := b.default_colors }
  else
    let newColors := (List.range b.data.length).map
      (fun i => if i ∈ selected then b.default_colors.getD i gray else gray)
    { b with colors := newColors }

/-- `self.data.dropna(subset=[x_attr, y_attr]).reset_index(drop=True)`:
keep exactly the rows whose two bound cells are present; positional
indices are re-assigned. -/
def dropnaXY (rows : List BRow) : List BRow :=
  rows.filter (fun r => !r.x.isNA && !r.y.isNA)

/-- Numeric coercion of the two bound columns
(`pd.to_numeric(..., errors='coerce')`). -/
def coerceXY (rows : List BRow) : List BRow :=
  rows.map (fun r => ⟨toNumeric r.x, toNumeric r.y⟩)

/-- Membership of a row in the normalized brush rectangle, bounds
inclusive on both axes. -/
def inRect (r : BRow) (x1 x2 y1 y2 : ℚ) : Bool :=
  between r.x x1 x2 && between r.y y1 y2

/-- `Brush.callback`: drop rows with missing bound attributes and reset
the index, coerce the two bound columns to numeric, normalize the two
drag corners into an axis-aligned rectangle (min/max per axis), select
the rows lying inside it and recolor via `update_colors`. -/
def callback (b : Brush) (cx1 cx2 cy1 cy2 : ℚ) : Brush :=
  let newData := coerceXY (dropnaXY b.data)
  let x1 := min cx1 cx2
  let x2 := max cx1 cx2
  let y1 := min cy1 cy2
  let y2 := max cy1 cy2
  let sel := (List.range newData.length).filter
      (fun i => inRect (newData.getD i emptyRow) x1 x2 y1 y2)
  updateColors { b with data := newData, selected := sel } sel

/-- The two linked brushing panels of `BrushingChart`. -/
structure TwoPanels where
  brush1 : Brush
  brush2 : Brush
deriving DecidableEq, Repr

/-- `BrushingChart.select`: run the dragged panel's brush callback, read
its selection (positional indices; the empty data frame yields `[]`),
and apply the identical selection-to-gray mapping to the complementary
panel's colors. -/
def select (c : TwoPanels) (graph : ℕ) (cx1 cx2 cy1 cy2 : ℚ) : TwoPanels :=
  if graph = 1 then
    let b1 := callback c.brush1 cx1 cx2 cy1 cy2
    let sel := if b1.selected.isEmpty then [] else b1.selected
    ⟨b1, updateColors c.brush2 sel⟩
  else if graph = 2 then
    let b2 := callback c.brush2 cx1 cx2 cy1 cy2
    let sel := if b2.selected.isEmpty then [] else b2.selected
    ⟨updateColors c.brush1 sel, b2⟩
  else c

/-- Persistent per-row visual state of `BubbleChart`: click-selected row
indices, edge colors and line widths (parallel arrays). -/
structure BubbleState where
  selected_indices : Finset ℕ
  edgecolors : List String
  linewidths : List ℚ
deriving DecidableEq

/-- `BubbleChart.__init__` visual state for `n` rows: nothing selected,
all edges `"white"` of width `0.5`. -/
def initBubble (n : ℕ) : BubbleState :=
  ⟨∅, List.replicate n "white", List.replicate n (1/2)⟩

/-- `BubbleChart.on_click`: on a hit, toggle the clicked row between
(`"red"`, width 2, selected) and (`"white"`, width 0.5, unselected);
a miss changes nothing. -/
def onClick (s : BubbleState) (hit : Option ℕ) : BubbleState :=
  match hit with
  | none => s
  | some i =>
    if s.edgecolors.getD i "white" = "red" then
      ⟨s.selected_indices.erase i,
       s.edgecolors.set i "white",
       s.linewidths.set i (1/2)⟩
    else
      ⟨insert i s.selected_indices,
       s.edgecolors.set i "red",
       s.linewidths.set i 2⟩

/-- `BubbleChart.on_hover`: returns the (unchanged) persistent state
together with the edge-color and line-width arrays handed to the
renderer. On a hit the handler copies the persistent arrays and, only
when the hovered row is not `"red"` (click-selected), restyles the copy
with a `"black"` border of width 2; on a miss it re-renders the
persistent arrays as they are. -/
def onHover (s : BubbleState) (hit : Option ℕ) :
    BubbleState × List String × List ℚ :=
  match hit with
  | none => (s, s.edgecolors, s.linewidths)
  | some i =>
    let hoverEdge := s.edgecolors
    let hoverWidth := s.linewidths
    if s.edgecolors.getD i "white" ≠ "red" then
      (s, hoverEdge.set i "black", hoverWidth.set i 2)
    else
      (s, hoverEdge, hoverWidth)

/-- One axis of the tooltip-placement logic shared by the hover
handlers: default offset 20 from the cursor, flipped to the other side
when the tooltip would overflow the far window edge, re-flipped when the
flipped position would underflow 0, then a final `+5` nudge. -/
def placeOffset (mouse size win : ℤ) : ℤ :=
  let off1 : ℤ := if win < mouse + 20 + size then -size - 20 else 20
  let off2 : ℤ := if mouse + off1 < 0 then 20 else off1
  mouse + off2 + 5

/-- Final tooltip top-left position for cursor `(mx, my)`, tooltip size
`(tw, th)` and window size `(winW, winH)`. -/
def tooltipPos (mx my tw th winW winH : ℤ) : ℤ × ℤ :=
  (placeOffset mx tw winW, placeOffset my th winH)

/-- A point in map data coordinates. -/
structure Pt where
  x : ℚ
  y : ℚ
deriving DecidableEq, Repr

/-- A territory geometry, abstracted to what `update_labels` reads: a
polygon carries its representative point and area; a multipolygon
carries one `(representative point, area)` pair per part. -/
inductive Geometry where
  | poly : Pt → ℚ → Geometry
  | multi : List (Pt × ℚ) → Geometry
  | other : Geometry
deriving DecidableEq, Repr

/-- `max(geometry.geoms, key=lambda p: p.area)`: the first part of
maximal area. -/
def largestPart : List (Pt × ℚ) → Option (Pt × ℚ)
  | [] => none
  | p :: ps => some (ps.foldl (fun a b => if a.2 < b.2 then b else a) p)

/-- The representative point used for a territory's label: the
polygon's own, or that of a multipolygon's largest part. -/
def repPoint : Geometry → Option Pt
  | .poly rp _ => some rp
  | .multi parts => (largestPart parts).map (fun p => p.1)
  | .other => none

/-- `geometry.area`: a multipolygon's area is the sum of its parts. -/
def geomArea : Geometry → ℚ
  | .poly _ a => a
  | .multi parts => (parts.map (fun p => p.2)).sum
  | .other => 0

/-- The visible viewport `shapely.geometry.box(xlim[0], ylim[0],
xlim[1], ylim[1])`. -/
structure Box where
  x0 : ℚ
  y0 : ℚ
  x1 : ℚ
  y1 : ℚ
deriving DecidableEq, Repr

/-- Shapely `box.contains(point)`: strict interior containment. -/
def boxContains (b : Box) (p : Pt) : Bool :=
  decide (b.x0 < p.x) && decide (p.x < b.x1) &&
    decide (b.y0 < p.y) && decide (p.y < b.y1)

/-- Viewport area. -/
def boxArea (b : Box) : ℚ :=
  (b.x1 - b.x0) * (b.y1 - b.y0)

/-- `MapChart.update_labels` for one label: shown iff the territory's
representative point lies in the visible viewport and the territory's
area exceeds `visible_area.area * 0.0015`; non-polygonal geometries are
always hidden. -/
def labelVisible (vb : Box) (g : Geometry) : Bool :=
  match repPoint g with
  | none => false
  | some p => boxContains vb p && decide (boxArea vb * (3/2000) < geomArea g)

/-- `MapChart.update_labels` over the whole label list: the resulting
visibility flags. -/
def updateLabels (vb : Box) (gs : List Geometry) : List Bool :=
  gs.map (labelVisible vb)

/-- Minimum of a data column (`Series.min`), 0 on an empty column. -/
def listMin : List ℚ → ℚ
  | [] => 0
  | x :: xs => xs.foldl min x

/-- Maximum of a data column (`Series.max`), 0 on an empty column. -/
def listMax : List ℚ → ℚ
  | [] => 0
  | x :: xs => xs.foldl max x

/-- `np.linspace(lo, hi, num)` with endpoint included. -/
def linspace (lo hi : ℚ) (num : ℕ) : List ℚ :=
  (List.range num).map
    (fun i : ℕ => lo + (hi - lo) * (i : ℚ) / ((num - 1 : ℕ) : ℚ))

/-- The labeled values of `add_dynamic_size_legend`:
`np.linspace(size_min, size_max, num=3)`. -/
def legendLabels (data : List ℚ) : List ℚ :=
  linspace (listMin data) (listMax data) 3

/-- Insertion into a sorted list (for the statistical median). -/
def insertSorted (x : ℚ) : List ℚ → List ℚ
  | [] => [x]
  | y :: ys => if x ≤ y then x :: y :: ys else y :: insertSorted x ys

/-- Sort a list of rationals. -/
def sortedQ (l : List ℚ) : List ℚ :=
  l.foldr insertSorted []

/-- The statistical median (`Series.median`): middle element of the
sorted column, or the mean of the two middle elements. -/
def median (l : List ℚ) : ℚ :=
  let s := sortedQ l
  if l.length % 2 = 1 then s.getD (l.length / 2) 0
  else (s.getD (l.length / 2 - 1) 0 + s.getD (l.length / 2) 0) / 2

/-- Concrete brush used as a witness input: two fully numeric rows. -/
def brushW : Brush :=
  { data := [⟨.num 1, .num 1⟩, ⟨.num 9, .num 9⟩]
    selected := []
    default_colors := [(1, 0, 0, 1), (0, 1, 0, 1)]
    colors := [(1, 0, 0, 1), (0, 1, 0, 1)] }

/-- Brush whose data contains a row with a missing bound attribute. -/
def brushNull : Brush :=
  { data := [⟨.null, .num 0⟩, ⟨.num 0, .num 0⟩]
    selected := []
    default_colors := [(1, 0, 0, 1), (0, 1, 0, 1)]
    colors := [(1, 0, 0, 1), (0, 1, 0, 1)] }

/-- Brush whose data mixes a text cell and numeric cells in the bound
x column. -/
def brushText : Brush :=
  { data := [⟨.text "abc", .num 0⟩, ⟨.num 1, .num 0⟩]
    selected := []
    default_colors := [(1, 0, 0, 1), (0, 1, 0, 1)]
    colors := [(1, 0, 0, 1), (0, 1, 0, 1)] }

/-- Concrete two-panel state used as a witness input. -/
def panelsW : TwoPanels :=
  { brush1 := brushW
    brush2 :=
      { data := [⟨.num 100, .num 100⟩, ⟨.num 200, .num 200⟩]
        selected := []
        default_colors := [(0, 0, 1, 1), (1, 1, 0, 1)]
        colors := [(0, 0, 1, 1), (1, 1, 0, 1)] } }

/-! ## Helper lemmas -/

theorem between_iff (c : Cell) (lo hi : ℚ) :
    between c lo hi = true ↔ ∃ q : ℚ, c = .num q ∧ lo ≤ q ∧ q ≤ hi := by
  cases c <;> simp [between]

theorem updateColors_data (b : Brush) (sel : List ℕ) :
    (updateColors b sel).data = b.data := by
  unfold updateColors
  split <;> rfl

theorem updateColors_selected (b : Brush) (sel : List ℕ) :
    (updateColors b sel).selected = b.selected := by
  unfold updateColors
  split <;> rfl

theorem updateColors_default (b : Brush) (sel : List ℕ) :
    (updateColors b sel).default_colors = b.default_colors := by
  unfold updateColors
  split <;> rfl

theorem updateColors_colors_nil (b : Brush) :
    (updateColors b []).colors = b.default_colors := by
  rfl

theorem updateColors_colors_of_ne (b : Brush) (sel : List ℕ) (h : sel ≠ []) :
    (updateColors b sel).colors = (List.range b.data.length).map
      (fun i => if i ∈ sel then b.default_colors.getD i gray else gray) := by
  unfold updateColors
  rw [if_neg (by simpa [List.length_eq_zero] using h)]

/-- Selection predicate of `Brush.callback` after corner normalization. -/
def selPred (rows : List BRow) (cx1 cx2 cy1 cy2 : ℚ) (i : ℕ) : Bool :=
  inRect (rows.getD i emptyRow) (min cx1 cx2) (max cx1 cx2)
    (min cy1 cy2) (max cy1 cy2)

/-- The positional indices selected by `Brush.callback`. -/
def selIdx (b : Brush) (cx1 cx2 cy1 cy2 : ℚ) : List ℕ :=
  (List.range (coerceXY (dropnaXY b.data)).length).filter
    (selPred (coerceXY (dropnaXY b.data)) cx1 cx2 cy1 cy2)

theorem callback_eq (b : Brush) (cx1 cx2 cy1 cy2 : ℚ) :
    callback b cx1 cx2 cy1 cy2 =
      updateColors
        { b with data := coerceXY (dropnaXY b.data)
                 selected := selIdx b cx1 cx2 cy1 cy2 }
        (selIdx b cx1 cx2 cy1 cy2) := rfl

theorem callback_data (b : Brush) (cx1 cx2 cy1 cy2 : ℚ) :
    (callback b cx1 cx2 cy1 cy2).data = coerceXY (dropnaXY b.data) := by
  rw [callback_eq, updateColors_data]

theorem callback_selected (b : Brush) (cx1 cx2 cy1 cy2 : ℚ) :
    (callback b cx1 cx2 cy1 cy2).selected = selIdx b cx1 cx2 cy1 cy2 := by
  rw [callback_eq, updateColors_selected]

theorem callback_default (b : Brush) (cx1 cx2 cy1 cy2 : ℚ) :
    (callback b cx1 cx2 cy1 cy2).default_colors = b.default_colors := by
  rw [callback_eq, updateColors_default]

theorem callback_colors (b : Brush) (cx1 cx2 cy1 cy2 : ℚ) :
    (callback b cx1 cx2 cy1 cy2).colors =
      if selIdx b cx1 cx2 cy1 cy2 = [] then b.default_colors
      else (List.range (coerceXY (dropnaXY b.data)).length).map
        (fun i => if i ∈ selIdx b cx1 cx2 cy1 cy2
          then b.default_colors.getD i gray else gray) := by
  rw [callback_eq]
  by_cases h : selIdx b cx1 cx2 cy1 cy2 = []
  · rw [if_pos h, h, updateColors_colors_nil]
  · rw [if_neg h, updateColors_colors_of_ne _ _ h]

/-! ## C1: the brush selects exactly the rows inside the rectangle -/

/-- C1. For every brush drag, the selection computed by `Brush.callback`
contains exactly those rows (of the post-drop, index-reset data) whose
bound x and y values both lie, bounds inclusive, within the rectangle
normalized (min/max per axis) from the two drag corners; every
unselected row fails at least one bound (contrapositive of the
right-to-left direction of the equivalence). -/
theorem callback_selected_iff (b : Brush) (cx1 cx2 cy1 cy2 : ℚ) (i : ℕ)
    (hi : i < (callback b cx1 cx2 cy1 cy2).data.length) :
    i ∈ (callback b cx1 cx2 cy1 cy2).selected ↔
      (∃ qx : ℚ, ((callback b cx1 cx2 cy1 cy2).data.getD i emptyRow).x = .num qx ∧
         min cx1 cx2 ≤ qx ∧ qx ≤ max cx1 cx2) ∧
      (∃ qy : ℚ, ((callback b cx1 cx2 cy1 cy2).data.getD i emptyRow).y = .num qy ∧
         min cy1 cy2 ≤ qy ∧ qy ≤ max cy1 cy2) := by
  rw [callback_data] at *
  rw [callback_selected]
  unfold selIdx
  rw [List.mem_filter, List.mem_range]
  unfold selPred inRect
  rw [Bool.and_eq_true, between_iff, between_iff]
  constructor
  · rintro ⟨-, hx, hy⟩
    exact ⟨hx, hy⟩
  · rintro ⟨hx, hy⟩
    exact ⟨hi, hx, hy⟩

/-- Witness for C1 at a concrete brush and drag rectangle: row 0 of
`brushW` holds value (1, 1), inside the rectangle with corners (0,0)
and (2,2). -/
theorem callback_selected_iff_witness :
    0 ∈ (callback brushW 0 2 0 2).selected ↔
      (∃ qx : ℚ, ((callback brushW 0 2 0 2).data.getD 0 emptyRow).x = .num qx ∧
         min (0:ℚ) 2 ≤ qx ∧ qx ≤ max (0:ℚ) 2) ∧
      (∃ qy : ℚ, ((callback brushW 0 2 0 2).data.getD 0 emptyRow).y = .num qy ∧
         min (0:ℚ) 2 ≤ qy ∧ qy ≤ max (0:ℚ) 2) :=
  callback_selected_iff brushW 0 2 0 2 0 (by decide)

/-! ## C2: cross-panel propagation of the brush selection -/

theorem ifEmpty_eq (l : List ℕ) : (if l.isEmpty then ([] : List ℕ) else l) = l := by
  cases l <;> simp

theorem select_one (c : TwoPanels) (cx1 cx2 cy1 cy2 : ℚ) :
    select c 1 cx1 cx2 cy1 cy2 =
      ⟨callback c.brush1 cx1 cx2 cy1 cy2,
       updateColors c.brush2
         (if (callback c.brush1 cx1 cx2 cy1 cy2).selected.isEmpty then []
          else (callback c.brush1 cx1 cx2 cy1 cy2).selected)⟩ := rfl

theorem select_two (c : TwoPanels) (cx1 cx2 cy1 cy2 : ℚ) :
    select c 2 cx1 cx2 cy1 cy2 =
      ⟨updateColors c.brush1
         (if (callback c.brush2 cx1 cx2 cy1 cy2).selected.isEmpty then []
          else (callback c.brush2 cx1 cx2 cy1 cy2).selected),
       callback c.brush2 cx1 cx2 cy1 cy2⟩ := rfl

/-- The complementary-panel recoloring at the `Brush` level: the
complementary brush's colors come from the dragged brush's selected
index set alone. -/
theorem complement_update (bd bo : Brush) (cx1 cx2 cy1 cy2 : ℚ) :
    ((callback bd cx1 cx2 cy1 cy2).selected = [] →
       (callback bd cx1 cx2 cy1 cy2).colors = bd.default_colors ∧
       (updateColors bo
          (if (callback bd cx1 cx2 cy1 cy2).selected.isEmpty then []
           else (callback bd cx1 cx2 cy1 cy2).selected)).colors =
         bo.default_colors) ∧
    ((callback bd cx1 cx2 cy1 cy2).selected ≠ [] →
       (updateColors bo
          (if (callback bd cx1 cx2 cy1 cy2).selected.isEmpty then []
           else (callback bd cx1 cx2 cy1 cy2).selected)).colors =
         (List.range bo.data.length).map
           (fun i => if i ∈ (callback bd cx1 cx2 cy1 cy2).selected
             then bo.default_colors.getD i gray else gray)) ∧
    (∀ d2 : List BRow, d2.length = bo.data.length →
       (updateColors { bo with data := d2 }
          (if (callback bd cx1 cx2 cy1 cy2).selected.isEmpty then []
           else (callback bd cx1 cx2 cy1 cy2).selected)).colors =
       (updateColors bo
          (if (callback bd cx1 cx2 cy1 cy2).selected.isEmpty then []
           else (callback bd cx1 cx2 cy1 cy2).selected)).colors) := by
  rw [ifEmpty_eq]
  refine ⟨?_, ?_, ?_⟩
  · intro h
    constructor
    · rw [callback_colors, callback_selected] at *
      rw [if_pos h]
    · rw [h, updateColors_colors_nil]
  · intro h
    rw [updateColors_colors_of_ne _ _ h]
  · intro d2 hd2
    by_cases h : (callback bd cx1 cx2 cy1 cy2).selected = []
    · rw [h, updateColors_colors_nil, updateColors_colors_nil]
    · rw [updateColors_colors_of_ne _ _ h, updateColors_colors_of_ne _ _ h]
      show (List.range d2.length).map _ = _
      rw [hd2]

/-- C2. After a brush drag on panel 1 (respectively panel 2), the
complementary panel's color array is recomputed from the exact same
selected index set as the dragged panel — gray for indices outside the
set, the complementary panel's own default color for indices inside —
independently of the complementary panel's own data (last conjunct of
each half); when the rectangle matches no rows, both panels revert to
their default colors. -/
theorem select_linked_panels (c : TwoPanels) (cx1 cx2 cy1 cy2 : ℚ) :
    (((select c 1 cx1 cx2 cy1 cy2).brush1.selected = [] →
        (select c 1 cx1 cx2 cy1 cy2).brush1.colors = c.brush1.default_colors ∧
        (select c 1 cx1 cx2 cy1 cy2).brush2.colors = c.brush2.default_colors) ∧
      ((select c 1 cx1 cx2 cy1 cy2).brush1.selected ≠ [] →
        (select c 1 cx1 cx2 cy1 cy2).brush2.colors =
          (List.range c.brush2.data.length).map
            (fun i => if i ∈ (select c 1 cx1 cx2 cy1 cy2).brush1.selected
              then c.brush2.default_colors.getD i gray else gray)) ∧
      (∀ d2 : List BRow, d2.length = c.brush2.data.length →
        (select ⟨c.brush1, { c.brush2 with data := d2 }⟩ 1 cx1 cx2 cy1 cy2).brush2.colors =
          (select c 1 cx1 cx2 cy1 cy2).brush2.colors)) ∧
    (((select c 2 cx1 cx2 cy1 cy2).brush2.selected = [] →
        (select c 2 cx1 cx2 cy1 cy2).brush2.colors = c.brush2.default_colors ∧
        (select c 2 cx1 cx2 cy1 cy2).brush1.colors = c.brush1.default_colors) ∧
      ((select c 2 cx1 cx2 cy1 cy2).brush2.selected ≠ [] →
        (select c 2 cx1 cx2 cy1 cy2).brush1.colors =
          (List.range c.brush1.data.length).map
            (fun i => if i ∈ (select c 2 cx1 cx2 cy1 cy2).brush2.selected
              then c.brush1.default_colors.getD i gray else gray)) ∧
      (∀ d1 : List BRow, d1.length = c.brush1.data.length →
        (select ⟨{ c.brush1 with data := d1 }, c.brush2⟩ 2 cx1 cx2 cy1 cy2).brush1.colors =
          (select c 2 cx1 cx2 cy1 cy2).brush1.colors)) := by
  simp only [select_one, select_two]
  obtain ⟨h1, h2, h3⟩ := complement_update c.brush1 c.brush2 cx1 cx2 cy1 cy2
  obtain ⟨g1, g2, g3⟩ := complement_update c.brush2 c.brush1 cx1 cx2 cy1 cy2
  exact ⟨⟨h1, h2, fun d2 hd2 => h3 d2 hd2⟩, ⟨g1, g2, fun d1 hd1 => g3 d1 hd1⟩⟩

/-- Witness for C2: on `panelsW` the drag rectangle with corners (0,0)
and (2,2) selects row 0 on panel 1, and panel 2 is recolored from that
same index set. -/
theorem select_linked_panels_witness :
    (select panelsW 1 0 2 0 2).brush2.colors =
      (List.range panelsW.brush2.data.length).map
        (fun i => if i ∈ (select panelsW 1 0 2 0 2).brush1.selected
          then panelsW.brush2.default_colors.getD i gray else gray) :=
  (select_linked_panels panelsW 0 2 0 2).1.2.1 (by decide)

/-! ## C3: visual-state array lengths -/

/-- C3 counterexample. On a brush whose data has a row with a missing
bound attribute, a callback whose rectangle matches nothing drops that
row (row count 1) yet restores the default color array of the original
length 2: the color array length differs from the row count right after
a handler ran, refuting the claimed invariant. -/
theorem visual_state_length_counterexample :
    ¬((callback brushNull 5 6 5 6).colors.length =
      (callback brushNull 5 6 5 6).data.length) := by decide

/-- C3 amended: every per-row visual-state array keeps length equal to
the row count after view construction and after every hover and click
event; after a brush callback the color array length equals the (post
drop) row count whenever the selection is nonempty, or whenever the
default color array length equals the post-drop row count (in
particular when no rows are dropped) — but not in general, per the
counterexample. -/
theorem visual_state_lengths (n : ℕ) (s : BubbleState) (hit : Option ℕ)
    (b b2 : Brush) (cx1 cx2 cy1 cy2 : ℚ)
    (hdef : b.default_colors.length = (dropnaXY b.data).length)
    (hsel : (callback b2 cx1 cx2 cy1 cy2).selected ≠ []) :
    (initBubble n).edgecolors.length = n ∧
    (initBubble n).linewidths.length = n ∧
    (onClick s hit).edgecolors.length = s.edgecolors.length ∧
    (onClick s hit).linewidths.length = s.linewidths.length ∧
    (onHover s hit).1 = s ∧
    (callback b cx1 cx2 cy1 cy2).colors.length =
      (callback b cx1 cx2 cy1 cy2).data.length ∧
    (callback b2 cx1 cx2 cy1 cy2).colors.length =
      (callback b2 cx1 cx2 cy1 cy2).data.length := by
  refine ⟨by simp [initBubble], by simp [initBubble], ?_, ?_, ?_, ?_, ?_⟩
  · cases hit with
    | none => rfl
    | some i => simp only [onClick]; split <;> simp
  · cases hit with
    | none => rfl
    | some i => simp only [onClick]; split <;> simp
  · cases hit with
    | none => rfl
    | some i => simp only [onHover]; split <;> rfl
  · rw [callback_colors, callback_data]
    by_cases h : selIdx b cx1 cx2 cy1 cy2 = []
    · rw [if_pos h, hdef]
      simp [coerceXY]
    · rw [if_neg h]
      simp
  · rw [callback_selected] at hsel
    rw [callback_colors, callback_data, if_neg hsel]
    simp

/-- Witness for C3 (amended) at concrete inputs: `brushW` drops no rows
and its default color array matches, and the drag rectangle with
corners (0,0), (2,2) gives `brushW` a nonempty selection. -/
theorem visual_state_lengths_witness :
    (initBubble 2).edgecolors.length = 2 ∧
    (initBubble 2).linewidths.length = 2 ∧
    (onClick (initBubble 2) (some 0)).edgecolors.length =
      (initBubble 2).edgecolors.length ∧
    (onClick (initBubble 2) (some 0)).linewidths.length =
      (initBubble 2).linewidths.length ∧
    (onHover (initBubble 2) (some 0)).1 = initBubble 2 ∧
    (callback brushW 0 2 0 2).colors.length =
      (callback brushW 0 2 0 2).data.length ∧
    (callback brushW 0 2 0 2).colors.length =
      (callback brushW 0 2 0 2).data.length :=
  visual_state_lengths 2 (initBubble 2) (some 0) brushW brushW 0 2 0 2
    (by decide) (by decide)

/-! ## C5: idempotence of the brush callback -/

/-- C5 counterexample. With a text cell in the bound x column, the
first callback keeps the text row (it is not null), coerces it to NaN
and selects index 1; the second callback drops the now-null row and
resets indices, selecting index 0 instead: reapplying the same drag
rectangle does not yield the same selection set. -/
theorem brush_idempotent_counterexample :
    (callback (callback brushText 0 5 (-1) 1) 0 5 (-1) 1).selected ≠
      (callback brushText 0 5 (-1) 1).selected := by decide

theorem cell_num_of_not_na_not_text (c : Cell) (hna : c.isNA = false)
    (ht : c.isText = false) : ∃ q : ℚ, c = .num q := by
  cases c with
  | null => simp [Cell.isNA] at hna
  | num q => exact ⟨q, rfl⟩
  | text s => simp [Cell.isText] at ht

theorem coerced_rows_num (d : List BRow)
    (hnotext : ∀ r ∈ d, r.x.isText = false ∧ r.y.isText = false) :
    ∀ r ∈ coerceXY (dropnaXY d),
      (∃ qx : ℚ, r.x = .num qx) ∧ (∃ qy : ℚ, r.y = .num qy) := by
  intro r hr
  unfold coerceXY at hr
  obtain ⟨r', hr', rfl⟩ := List.mem_map.mp hr
  unfold dropnaXY at hr'
  obtain ⟨hmem, hkeep⟩ := List.mem_filter.mp hr'
  simp only [Bool.and_eq_true, Bool.not_eq_true'] at hkeep
  obtain ⟨htx, hty⟩ := hnotext r' hmem
  obtain ⟨qx, hqx⟩ := cell_num_of_not_na_not_text r'.x hkeep.1 htx
  obtain ⟨qy, hqy⟩ := cell_num_of_not_na_not_text r'.y hkeep.2 hty
  exact ⟨⟨qx, by simp [hqx, toNumeric]⟩, ⟨qy, by simp [hqy, toNumeric]⟩⟩

theorem dropnaXY_id (l : List BRow)
    (h : ∀ r ∈ l, (∃ qx : ℚ, r.x = .num qx) ∧ (∃ qy : ℚ, r.y = .num qy)) :
    dropnaXY l = l := by
  unfold dropnaXY
  apply List.filter_eq_self.mpr
  intro r hr
  obtain ⟨⟨qx, hqx⟩, ⟨qy, hqy⟩⟩ := h r hr
  simp [hqx, hqy, Cell.isNA]

theorem coerceXY_id (l : List BRow)
    (h : ∀ r ∈ l, (∃ qx : ℚ, r.x = .num qx) ∧ (∃ qy : ℚ, r.y = .num qy)) :
    coerceXY l = l := by
  unfold coerceXY
  induction l with
  | nil => rfl
  | cons r rs ih =>
    obtain ⟨⟨qx, hqx⟩, ⟨qy, hqy⟩⟩ := h r (List.mem_cons_self r rs)
    simp only [List.map_cons]
    rw [ih (fun r' hr' => h r' (List.mem_cons_of_mem r hr'))]
    obtain ⟨rx, ry⟩ := r
    simp only at hqx hqy
    simp [hqx, hqy, toNumeric]

theorem updateColors_congr (a b : Brush) (s : List ℕ)
    (hd : a.data = b.data) (hs : a.selected = b.selected)
    (hdef : a.default_colors = b.default_colors) :
    updateColors a s = updateColors b s := by
  obtain ⟨da, sa, ca, la⟩ := a
  obtain ⟨db, sb, cb, lb⟩ := b
  simp only at hd hs hdef
  subst hd hs hdef
  unfold updateColors
  split <;> rfl

/-- C5 amended: provided the bound attribute columns contain no
non-numeric text cells (so numeric coercion introduces no new nulls
after the first drop), `Brush.callback` is idempotent: reapplying the
same drag rectangle yields the identical brush state — same selection
set and same color array — even when the first application drops rows
with null bound attributes and resets the row indices. -/
theorem callback_idempotent_of_no_text (b : Brush) (cx1 cx2 cy1 cy2 : ℚ)
    (hnotext : ∀ r ∈ b.data, r.x.isText = false ∧ r.y.isText = false) :
    callback (callback b cx1 cx2 cy1 cy2) cx1 cx2 cy1 cy2 =
      callback b cx1 cx2 cy1 cy2 := by
  have hnum := coerced_rows_num b.data hnotext
  have hdrop : dropnaXY (coerceXY (dropnaXY b.data)) = coerceXY (dropnaXY b.data) :=
    dropnaXY_id _ hnum
  have hco : coerceXY (coerceXY (dropnaXY b.data)) = coerceXY (dropnaXY b.data) :=
    coerceXY_id _ hnum
  have key : selIdx (callback b cx1 cx2 cy1 cy2) cx1 cx2 cy1 cy2 =
      selIdx b cx1 cx2 cy1 cy2 := by
    unfold selIdx
    rw [callback_data, hdrop, hco]
  rw [callback_eq (callback b cx1 cx2 cy1 cy2), callback_data, hdrop, hco, key]
  conv_rhs => rw [callback_eq]
  exact updateColors_congr _ _ _ rfl rfl (callback_default b cx1 cx2 cy1 cy2)

/-- Witness for C5 (amended): `brushNull` has a null bound cell but no
text cell; the first callback drops the null row and resets indices,
and reapplying the same rectangle reproduces the state exactly. -/
theorem callback_idempotent_witness :
    callback (callback brushNull 0 5 (-1) 1) 0 5 (-1) 1 =
      callback brushNull 0 5 (-1) 1 :=
  callback_idempotent_of_no_text brushNull 0 5 (-1) 1 (by decide)

/-! ## C6 and C10: bubble-chart click toggling and hover purity -/

theorem getD_set_self {α : Type} (l : List α) (i : ℕ) (a d : α)
    (h : i < l.length) : (l.set i a).getD i d = a := by
  induction l generalizing i with
  | nil => simp at h
  | cons x xs ih =>
    cases i with
    | zero => rfl
    | succ n =>
      simp only [List.set_cons_succ, List.getD_cons_succ]
      exact ih n (by simpa using h)

theorem getD_set_ne {α : Type} (l : List α) (i j : ℕ) (a d : α)
    (h : j ≠ i) : (l.set i a).getD j d = l.getD j d := by
  induction l generalizing i j with
  | nil => rfl
  | cons x xs ih =>
    cases i with
    | zero =>
      cases j with
      | zero => exact absurd rfl h
      | succ m => rfl
    | succ n =>
      cases j with
      | zero => rfl
      | succ m =>
        simp only [List.set_cons_succ, List.getD_cons_succ]
        exact ih n m (fun hh => h (by rw [hh]))

theorem set_getD_self {α : Type} (l : List α) (i : ℕ) (d : α)
    (h : i < l.length) : l.set i (l.getD i d) = l := by
  induction l generalizing i with
  | nil => rfl
  | cons x xs ih =>
    cases i with
    | zero => rfl
    | succ n =>
      simp only [List.set_cons_succ, List.getD_cons_succ]
      rw [ih n (by simpa using h)]

/-- C6. In the bubble view, clicking the same row twice restores the
row's persistent edge color, line width and selection membership to
their pre-toggle state (the handler toggles between `"red"`/width 2/
selected and `"white"`/width 0.5/unselected, so a reachable state obeys
the two toggle invariants assumed here), and the first click leaves
every other row's edge color and line width unchanged. -/
theorem click_twice_restores (s : BubbleState) (i : ℕ)
    (hie : i < s.edgecolors.length) (hil : i < s.linewidths.length)
    (hred : s.edgecolors.getD i "white" = "red" →
      s.linewidths.getD i 0 = 2 ∧ i ∈ s.selected_indices)
    (hwhite : s.edgecolors.getD i "white" ≠ "red" →
      s.edgecolors.getD i "white" = "white" ∧
      s.linewidths.getD i 0 = 1/2 ∧ i ∉ s.selected_indices) :
    onClick (onClick s (some i)) (some i) = s ∧
    (∀ j, j ≠ i →
      (onClick s (some i)).edgecolors.getD j "white" =
        s.edgecolors.getD j "white" ∧
      (onClick s (some i)).linewidths.getD j 0 = s.linewidths.getD j 0) := by
  obtain ⟨sel, ec, lw⟩ := s
  simp only at hie hil hred hwhite
  by_cases hc : ec.getD i "white" = "red"
  · obtain ⟨hlw, hmem⟩ := hred hc
    constructor
    · simp only [onClick, if_pos hc]
      rw [if_neg (by rw [getD_set_self ec i "white" "white" hie]; simp)]
      simp only [BubbleState.mk.injEq]
      refine ⟨Finset.insert_erase hmem, ?_, ?_⟩
      · rw [List.set_set, ← hc, set_getD_self ec i "white" hie]
      · rw [List.set_set, ← hlw, set_getD_self lw i 0 hil]
    · intro j hj
      simp only [onClick, if_pos hc]
      exact ⟨getD_set_ne ec i j "white" "white" hj,
        getD_set_ne lw i j (1/2) 0 hj⟩
  · obtain ⟨hec, hlw, hmem⟩ := hwhite hc
    constructor
    · simp only [onClick, if_neg hc]
      rw [if_pos (by rw [getD_set_self ec i "red" "white" hie])]
      simp only [BubbleState.mk.injEq]
      refine ⟨Finset.erase_insert hmem, ?_, ?_⟩
      · rw [List.set_set, ← hec, set_getD_self ec i "white" hie]
      · rw [List.set_set, ← hlw, set_getD_self lw i 0 hil]
    · intro j hj
      simp only [onClick, if_neg hc]
      exact ⟨getD_set_ne ec i j "red" "white" hj,
        getD_set_ne lw i j 2 0 hj⟩

/-- A reachable bubble state: row 0 click-selected. -/
def bubbleW : BubbleState := ⟨{0}, ["red"], [2]⟩

/-- Witness for C6 on the one-row state with row 0 click-selected. -/
theorem click_twice_restores_witness :
    onClick (onClick bubbleW (some 0)) (some 0) = bubbleW ∧
    (∀ j, j ≠ 0 →
      (onClick bubbleW (some 0)).edgecolors.getD j "white" =
        bubbleW.edgecolors.getD j "white" ∧
      (onClick bubbleW (some 0)).linewidths.getD j 0 =
        bubbleW.linewidths.getD j 0) :=
  click_twice_restores bubbleW 0 (by decide) (by decide)
    (fun _ => ⟨rfl, by decide⟩) (fun h => absurd rfl h)

/-- C10. The bubble-chart hover handler never modifies the persistent
per-row state (selection set, edge colors, line widths): it only styles
a copy handed to the renderer; a hovered row whose persistent edge
color is `"red"` keeps the persistent styling (red border) instead of
the black hover border; and a hover miss re-renders exactly the
persistent arrays. -/
theorem hover_no_mutation (s : BubbleState) (hit : Option ℕ) (i : ℕ)
    (hredi : s.edgecolors.getD i "white" = "red") :
    (onHover s hit).1 = s ∧
    onHover s (some i) = (s, s.edgecolors, s.linewidths) ∧
    onHover s none = (s, s.edgecolors, s.linewidths) := by
  refine ⟨?_, ?_, rfl⟩
  · cases hit with
    | none => rfl
    | some j =>
      simp only [onHover]
      split <;> rfl
  · simp only [onHover]
    rw [if_neg (fun h => h hredi)]

/-- Witness for C10 on the one-row state whose row 0 is `"red"`. -/
theorem hover_no_mutation_witness :
    (onHover bubbleW (some 0)).1 = bubbleW ∧
    onHover bubbleW (some 0) = (bubbleW, bubbleW.edgecolors, bubbleW.linewidths) ∧
    onHover bubbleW none = (bubbleW, bubbleW.edgecolors, bubbleW.linewidths) :=
  hover_no_mutation bubbleW (some 0) 0 rfl

/-! ## C4: tooltip placement -/

/-- C4 counterexample. With a 502×502 window, a 225×63 tooltip and the
cursor at (257, 100) — strictly inside the window — the default
placement does not overflow (257+20+225 = 502 is not > 502) so no flip
happens, yet the final `+5` nudge puts the tooltip's right edge at 507,
outside the window: the claimed containment fails. -/
theorem tooltip_bounds_counterexample :
    ((0:ℤ) < 257 ∧ (257:ℤ) < 502 ∧ (0:ℤ) < 100 ∧ (100:ℤ) < 502) ∧
    ¬(0 ≤ (tooltipPos 257 100 225 63 502 502).1 ∧
      (tooltipPos 257 100 225 63 502 502).1 + 225 ≤ 502 ∧
      0 ≤ (tooltipPos 257 100 225 63 502 502).2 ∧
      (tooltipPos 257 100 225 63 502 502).2 + 63 ≤ 502) := by decide

theorem placeOffset_bounds (m size win : ℤ) (hm0 : 0 ≤ m) (hmw : m < win)
    (hfit : ¬(win < m + 20 + size ∧ m - size - 20 < 0)) :
    0 ≤ placeOffset m size win ∧ placeOffset m size win + size ≤ win + 5 := by
  simp only [placeOffset]
  split_ifs <;> omega

/-- C4 amended: for every cursor position strictly inside the window,
provided the tooltip fits on at least one side of the cursor along each
axis (the flipped placement does not underflow when the default
placement overflows), the final placement never underflows the window's
left/top edges, and its right/bottom edges exceed the window bounds by
at most the final `+5` nudge. -/
theorem tooltip_within_window_ext (mx my tw th winW winH : ℤ)
    (hmx0 : 0 ≤ mx) (hmxw : mx < winW) (hmy0 : 0 ≤ my) (hmyh : my < winH)
    (hfitx : ¬(winW < mx + 20 + tw ∧ mx - tw - 20 < 0))
    (hfity : ¬(winH < my + 20 + th ∧ my - th - 20 < 0)) :
    0 ≤ (tooltipPos mx my tw th winW winH).1 ∧
    (tooltipPos mx my tw th winW winH).1 + tw ≤ winW + 5 ∧
    0 ≤ (tooltipPos mx my tw th winW winH).2 ∧
    (tooltipPos mx my tw th winW winH).2 + th ≤ winH + 5 := by
  obtain ⟨a1, a2⟩ := placeOffset_bounds mx tw winW hmx0 hmxw hfitx
  obtain ⟨b1, b2⟩ := placeOffset_bounds my th winH hmy0 hmyh hfity
  exact ⟨a1, a2, b1, b2⟩

/-- Witness for C4 (amended): cursor (50, 60) in a 1200×800 window with
a 225×63 tooltip. -/
theorem tooltip_within_window_ext_witness :
    0 ≤ (tooltipPos 50 60 225 63 1200 800).1 ∧
    (tooltipPos 50 60 225 63 1200 800).1 + 225 ≤ 1200 + 5 ∧
    0 ≤ (tooltipPos 50 60 225 63 1200 800).2 ∧
    (tooltipPos 50 60 225 63 1200 800).2 + 63 ≤ 800 + 5 :=
  tooltip_within_window_ext 50 60 225 63 1200 800 (by decide) (by decide)
    (by decide) (by decide) (by decide) (by decide)

/-! ## C7 and C8: map-label visibility -/

theorem updateLabels_getD (vb : Box) (gs : List Geometry) (k : ℕ)
    (hk : k < gs.length) :
    (updateLabels vb gs).getD k false = labelVisible vb (gs.getD k .other) := by
  unfold updateLabels
  induction gs generalizing k with
  | nil => simp at hk
  | cons g gs ih =>
    cases k with
    | zero => rfl
    | succ n =>
      simp only [List.map_cons, List.getD_cons_succ]
      exact ih n (by simpa using hk)

/-- C7. After the visibility recomputation of `update_labels`, the
`k`-th label is visible iff the territory's representative point lies
strictly inside the visible viewport rectangle and the territory's area
exceeds 0.15% of the viewport's area. -/
theorem label_visible_iff (vb : Box) (gs : List Geometry) (k : ℕ) (p : Pt)
    (hk : k < gs.length)
    (hp : repPoint (gs.getD k Geometry.other) = some p) :
    (updateLabels vb gs).getD k false = true ↔
      (vb.x0 < p.x ∧ p.x < vb.x1 ∧ vb.y0 < p.y ∧ p.y < vb.y1 ∧
        boxArea vb * (3/2000) < geomArea (gs.getD k Geometry.other)) := by
  rw [updateLabels_getD vb gs k hk]
  unfold labelVisible
  rw [hp]
  simp [boxContains, and_assoc]

/-- Concrete territory and viewports for the label-visibility claims. -/
def geoW : Geometry := .poly ⟨0, 0⟩ 1000

def viewW1 : Box := ⟨-10, -10, 10, 10⟩

def viewW2 : Box := ⟨5, 5, 6, 6⟩

def viewW3 : Box := ⟨-1, -1, 1, 1⟩

/-- Witness for C7: the label of `geoW` inside the viewport `viewW1`. -/
theorem label_visible_iff_witness :
    (updateLabels viewW1 [geoW]).getD 0 false = true ↔
      (viewW1.x0 < (0:ℚ) ∧ (0:ℚ) < viewW1.x1 ∧ viewW1.y0 < (0:ℚ) ∧
        (0:ℚ) < viewW1.y1 ∧
        boxArea viewW1 * (3/2000) < geomArea ([geoW].getD 0 Geometry.other)) :=
  label_visible_iff viewW1 [geoW] 0 ⟨0, 0⟩ (by decide) rfl

/-- C8 counterexample. `viewW2` has smaller area than `viewW1` (zooming
in) and the territory's area still exceeds the 0.15% fraction of the
smaller viewport — the threshold is not crossed — yet the label,
visible under `viewW1`, is hidden under `viewW2` because the
representative point left the viewport: visibility is not monotonic in
viewport area alone. -/
theorem label_monotone_counterexample :
    boxArea viewW2 < boxArea viewW1 ∧
    labelVisible viewW1 geoW = true ∧
    boxArea viewW2 * (3/2000) < geomArea geoW ∧
    labelVisible viewW2 geoW = false := by
  refine ⟨by norm_num [boxArea, viewW1, viewW2], ?_,
    by norm_num [geomArea, geoW, boxArea, viewW2], ?_⟩
  · simp only [labelVisible, geoW, repPoint, boxContains, geomArea, boxArea,
      viewW1]
    norm_num
  · simp only [labelVisible, geoW, repPoint, boxContains, geomArea, boxArea,
      viewW2]
    norm_num

/-- C8 amended: for a fixed territory, zooming in (a viewport of smaller
or equal area) never hides a previously visible label provided the
territory's representative point remains inside the new viewport; the
area-fraction threshold only loosens as the viewport shrinks, so it
cannot be crossed. -/
theorem label_visible_monotone (vb1 vb2 : Box) (g : Geometry) (p : Pt)
    (hp : repPoint g = some p)
    (harea : boxArea vb2 ≤ boxArea vb1)
    (hvis : labelVisible vb1 g = true)
    (hin : boxContains vb2 p = true) :
    labelVisible vb2 g = true := by
  unfold labelVisible at hvis ⊢
  rw [hp] at hvis ⊢
  simp only [Bool.and_eq_true, decide_eq_true_eq] at hvis ⊢
  refine ⟨hin, lt_of_le_of_lt ?_ hvis.2⟩
  apply mul_le_mul_of_nonneg_right harea
  norm_num

/-- Witness for C8 (amended): zooming from `viewW1` into `viewW3`,
which still contains the representative point of `geoW`. -/
theorem label_visible_monotone_witness :
    labelVisible viewW3 geoW = true :=
  label_visible_monotone viewW1 viewW3 geoW ⟨0, 0⟩ rfl
    (by norm_num [boxArea, viewW1, viewW3])
    (by simp only [labelVisible, geoW, repPoint, boxContains, geomArea,
          boxArea, viewW1]
        norm_num)
    (by decide)

/-! ## C9: the size-legend labels -/

/-- C9 counterexample. For the non-constant column `[0, 0, 10]` the
legend's middle labeled value is `np.linspace`'s midpoint 5, while the
column's median is 0: the three labels span min/midpoint/max, not
min/median/max. -/
theorem legend_values_counterexample :
    listMin [0, 0, 10] ≠ listMax [0, 0, 10] ∧
    median [0, 0, 10] = 0 ∧
    (legendLabels [0, 0, 10]).getD 1 0 = 5 ∧
    (5:ℚ) ≠ 0 := by
  refine ⟨by norm_num [listMin, listMax], ?_, ?_, by norm_num⟩
  · norm_num [median, sortedQ, insertSorted]
  · norm_num [legendLabels, linspace, listMin, listMax,
      show List.range 3 = [0, 1, 2] from rfl]

/-- C9 amended: for every size column with distinct minimum and
maximum, the size legend carries exactly three representative markers
whose labeled values are the minimum, the midpoint `(min+max)/2` (not
the median), and the maximum of the size attribute. -/
theorem legend_labels_min_mid_max (data : List ℚ)
    (_hconst : listMin data ≠ listMax data) :
    (legendLabels data).length = 3 ∧
    legendLabels data =
      [listMin data, (listMin data + listMax data) / 2, listMax data] := by
  unfold legendLabels linspace
  refine ⟨by rw [List.length_map, List.length_range], ?_⟩
  rw [show List.range 3 = [0, 1, 2] from rfl]
  simp only [List.map_cons, List.map_nil, List.cons.injEq, and_true]
  refine ⟨?_, ?_, ?_⟩ <;> push_cast <;> ring

/-- Witness for C9 (amended) on the non-constant column `[0, 0, 10]`. -/
theorem legend_labels_min_mid_max_witness :
    (legendLabels [0, 0, 10]).length = 3 ∧
    legendLabels [(0:ℚ), 0, 10] =
      [listMin [0, 0, 10], (listMin [0, 0, 10] + listMax [0, 0, 10]) / 2,
        listMax [0, 0, 10]] :=
  legend_labels_min_mid_max [0, 0, 10] (by decide)

end Toggle
